import Mathlib

/-!
Verification development for the DeSIST simulation core (`main.py`).

The Python source is a simpy-based discrete-event simulation.  All the
functions the claims are about are sequential method bodies; they are
embedded here as pure Lean functions with the mutated object state passed
and returned explicitly.  Python floats are modelled by exact rationals
(`ℚ`); the float value `inf` used for RPL ranks is modelled by the
two-constructor type `ERank` (and `EScore` for the `-inf` initialiser of
parent utilities), whose comparison operations reproduce IEEE semantics for
the values that actually arise, including the `nan`-producing case
`inf - inf` inside `lia_update_psg_from_dio`'s rank-jump test.
Python `defaultdict` stores are modelled as total functions, and the global
`STATS` dictionary as an explicit `Stats` record threaded through the
functions that write it.  The per-node energy gauge `STATS["nodes_energy"]`
merely mirrors `self.energy` and is not duplicated in `Stats`.
-/

namespace DeSIST

/-- Attacker variants of `IoTNode.is_attacker_type`. -/
inductive AttackerType where
  | blackhole
  | selfish
  | rpl_rank
deriving DecidableEq

/-- PFG interaction outcomes recorded in the LIA store. -/
inductive Outcome where
  | Cooperate
  | Defect
deriving DecidableEq

/-- The action component returned by `sdu_pfg_select_forwarder`. -/
inductive Action where
  | Send
  | Hold
deriving DecidableEq

/-- The cost kinds accepted by `consume_energy` (keys of `cost_map`). -/
inductive CostType where
  | tx_pkt
  | rx_pkt
  | tx_ctrl
  | rx_ctrl
  | sdu
  | lia
  | idle
deriving DecidableEq

def E_TX_PKT : ℚ := 5/100
def E_RX_PKT : ℚ := 2/100
def E_TX_CTRL : ℚ := 1/100
def E_RX_CTRL : ℚ := 5/1000
def E_SDU_COMPUTE : ℚ := 1/1000
def E_LIA_UPDATE : ℚ := 5/10000
def E_IDLE_LISTEN : ℚ := 1/10000

/-- `PFG_SENDER_PAYOFFS[('Send', 'Cooperate')]`. -/
def PFG_PAYOFF_SEND_COOPERATE : ℚ := 4
/-- `PFG_SENDER_PAYOFFS[('Send', 'Defect')]`. -/
def PFG_PAYOFF_SEND_DEFECT : ℚ := -11
/-- `PFG_SENDER_PAYOFFS[('Hold', 'N/A')]`. -/
def PFG_PAYOFF_HOLD : ℚ := -1/10

def PSG_WEIGHT_RANK : ℚ := 1/2
def PSG_WEIGHT_STABILITY : ℚ := 3/10
def PSG_WEIGHT_LINK_QUALITY : ℚ := 2/10
def PSG_CHANGE_PENALTY : ℚ := -2

/-- The `cost_map` dictionary inside `consume_energy`. -/
def cost_map : CostType → ℚ
  | .tx_pkt => E_TX_PKT
  | .rx_pkt => E_RX_PKT
  | .tx_ctrl => E_TX_CTRL
  | .rx_ctrl => E_RX_CTRL
  | .sdu => E_SDU_COMPUTE
  | .lia => E_LIA_UPDATE
  | .idle => E_IDLE_LISTEN

/-- RPL ranks: a finite float value or the float `inf` used as the initial
rank of every non-sink node. -/
inductive ERank where
  | inf
  | fin (r : ℚ)
deriving DecidableEq

/-- Python `a < b` on rank floats (no `nan` can appear in rank slots). -/
def ERank.pyLt : ERank → ERank → Bool
  | .fin a, .fin b => a < b
  | .fin _, .inf => true
  | .inf, _ => false

/-- Python `a <= b` on rank floats (`inf <= inf` is `True`). -/
def ERank.pyLe : ERank → ERank → Bool
  | .fin a, .fin b => a ≤ b
  | .fin _, .inf => true
  | .inf, .inf => true
  | .inf, .fin _ => false

/-- Adding a finite float to a rank (`inf + 1 = inf`). -/
def ERank.addQ : ERank → ℚ → ERank
  | .inf, _ => .inf
  | .fin a, q => .fin (a + q)

/-- Python `abs(rank - last_rank) > 2` on rank floats.  `inf - inf` is
`nan` and `nan > 2` is `False`, so the both-infinite case is `false`. -/
def rankJumpGT2 : ERank → ERank → Bool
  | .fin a, .fin b => 2 < |a - b|
  | .inf, .fin _ => true
  | .fin _, .inf => true
  | .inf, .inf => false

/-- Parent utilities: a finite value or the float `-inf` used both as the
initial `max_parent_utility` and as `0.5 * (-inf)` for an infinite-rank
candidate. -/
inductive EScore where
  | ninf
  | fin (q : ℚ)
deriving DecidableEq

/-- Python `a < b` on utility floats (`-inf < -inf` is `False`). -/
def EScore.pyLt : EScore → EScore → Bool
  | .ninf, .fin _ => true
  | .ninf, .ninf => false
  | .fin a, .fin b => a < b
  | .fin _, .ninf => false

/-- Adding a finite float to a utility (`-inf + c = -inf`). -/
def EScore.addQ : EScore → ℚ → EScore
  | .ninf, _ => .ninf
  | .fin a, q => .fin (a + q)

/-- One entry of the per-neighbor `lia_data` defaultdict. -/
structure LIAEntry where
  pfg_last_outcome : Option Outcome
  pfg_coop_count : ℕ
  pfg_defect_count : ℕ
  psg_last_rank_advertised : Option ERank
  psg_rank_stability_score : ℚ
  psg_dio_timestamps : List ℚ
  link_quality_rssi : ℚ
deriving DecidableEq

/-- The default `lia_data` entry (the randomized RSSI is a parameter). -/
def defaultLIAEntry (rssi : ℚ) : LIAEntry :=
  { pfg_last_outcome := none
    pfg_coop_count := 0
    pfg_defect_count := 0
    psg_last_rank_advertised := none
    psg_rank_stability_score := 1
    psg_dio_timestamps := []
    link_quality_rssi := rssi }

/-- Result of one `consume_energy` call: the new energy and alive fields of
the node, and the cause of the interrupt raised on the node's process, if
any. -/
structure ConsumeOut where
  energy : ℚ
  alive : Bool
  interrupt_cause : Option String
deriving DecidableEq

/-- `IoTNode.consume_energy`.  Mirrors the Python body: no-op when the node
is not alive; otherwise subtract the explicit amount if given, else the
`cost_map` entry; on `energy <= 0` clamp to `0`, clear `alive` and raise
the interrupt with cause `"energy_depleted"` on the node's process. -/
def consume_energy (energy : ℚ) (alive : Bool) (cost_type : CostType)
    (amount : Option ℚ) : ConsumeOut :=
  if alive = false then ⟨energy, alive, none⟩
  else if energy - amount.getD (cost_map cost_type) ≤ 0 then
    ⟨0, false, some "energy_depleted"⟩
  else ⟨energy - amount.getD (cost_map cost_type), alive, none⟩

/-- The (energy, alive) pair of a node, threaded through loops that charge
energy without touching the rest of the node state. -/
structure EnergyState where
  energy : ℚ
  alive : Bool
deriving DecidableEq

/-- `consume_energy` with no explicit amount, on an `EnergyState`. -/
def ceES (es : EnergyState) (c : CostType) : EnergyState :=
  let r := consume_energy es.energy es.alive c none
  ⟨r.energy, r.alive⟩

/-- `lia_get_pfg_p_cooperate`'s returned value, as a function of the LIA
entry alone (the method additionally charges the `lia` energy cost, which
is threaded separately where it matters). -/
def p_cooperate (e : LIAEntry) : ℚ :=
  let total := e.pfg_coop_count + e.pfg_defect_count
  if total = 0 then 1/2
  else
    let base : ℚ := (e.pfg_coop_count : ℚ) / (total : ℚ)
    let base2 : ℚ :=
      match e.pfg_last_outcome with
      | some .Defect => max (1/100) (base * (3/10))
      | some .Cooperate => min (99/100) (base * (11/10) + 2/10)
      | none => base
    min (99/100) (max (1/100) base2)

/-- `collections.deque(maxlen=5)` append: the oldest element is dropped
once the window holds five timestamps. -/
def dequeAppend (l : List ℚ) (x : ℚ) : List ℚ :=
  if (l ++ [x]).length ≤ 5 then l ++ [x]
  else (l ++ [x]).drop ((l ++ [x]).length - 5)

/-- The LIA-entry update performed by `lia_update_psg_from_dio` (the
advertised version number is received but not stored by the Python body). -/
def update_psg_entry (e : LIAEntry) (now : ℚ) (rank : ERank) : LIAEntry :=
  let e1 := { e with psg_dio_timestamps := dequeAppend e.psg_dio_timestamps now }
  let e2 :=
    match e1.psg_last_rank_advertised with
    | none => e1
    | some lastr =>
      if rankJumpGT2 rank lastr then
        { e1 with psg_rank_stability_score := e1.psg_rank_stability_score * (8/10) }
      else
        let s2 : ℚ := min 1 (e1.psg_rank_stability_score * (105/100) + 5/100)
        { e1 with psg_rank_stability_score := s2 }
  { e2 with psg_last_rank_advertised := some rank }

/-- Packet types dispatched by `_receive_message` / charged differently by
`_send_message`. -/
inductive PacketType where
  | data
  | dio
  | ack
  | report
deriving DecidableEq

/-- The fields of a `Packet` the embedded handlers read or write (`id`,
`source_id`, `data` and `current_hop_sender_id` are carried along in the
Python object but are not consulted by any embedded code path). -/
structure Packet where
  dest_id : ℕ
  creation_time : ℚ
  path : List ℕ
deriving DecidableEq

/-- The view a node holds of a neighbor through `self.neighbors`: the
Python dict maps the neighbor id to the live node object; the embedded
handlers read only its `alive`, `rpl_rank` and `is_attacker_type` fields. -/
structure NbrView where
  alive : Bool
  rpl_rank : ERank
  is_attacker_type : Option AttackerType
deriving DecidableEq

/-- The per-node state the embedded methods read and mutate. -/
structure NodeState where
  id : ℕ
  is_attacker_type : Option AttackerType
  energy : ℚ
  alive : Bool
  rpl_parent_id : Option ℕ
  rpl_rank : ERank
  lia_data : ℕ → LIAEntry
  neighbors : List (ℕ × NbrView)

/-- `consume_energy` as a node-state update (no explicit amount). -/
def NodeState.consumeE (s : NodeState) (c : CostType) : NodeState :=
  let r := consume_energy s.energy s.alive c none
  { s with energy := r.energy, alive := r.alive }

/-- `self.neighbors.get(i)`. -/
def lookupNbr (nbrs : List (ℕ × NbrView)) (i : ℕ) : Option NbrView :=
  (nbrs.find? (fun p => p.1 = i)).map Prod.snd

/-- Python truthiness of an id-or-None value: `None` and the id `0` (the
sink) are falsy.  This is the test in `if new_parent_id and ...` and in the
keying expressions `x if x else 'Hold'` / `x if x else 'None'`. -/
def pyTruthyId : Option ℕ → Bool
  | none => false
  | some n => n ≠ 0

/-- The fields of the global `STATS` dictionary written by the embedded
code paths.  Choice tallies are keyed by `some id` for a node id and by
`none` for the `'Hold'` / `'None'` string keys. -/
structure Stats where
  packets_received_dest : ℕ
  packets_dropped_blackhole : ℕ
  packets_dropped_selfish : ℕ
  packets_dropped_other : ℕ
  total_delay : ℚ
  rpl_parent_changes : ℕ → ℕ
  sdu_pfg_choices : ℕ → Option ℕ → ℕ
  sdu_psg_choices : ℕ → Option ℕ → ℕ
  control_packets_sent : ℕ → PacketType → ℕ

/-- `counter[i] += 1` on a per-node counter. -/
def bumpCtr (f : ℕ → ℕ) (i : ℕ) : ℕ → ℕ :=
  fun j => if j = i then f j + 1 else f j

/-- `table[i][k] += 1` on a per-node, per-key tally. -/
def bumpKey (f : ℕ → Option ℕ → ℕ) (i : ℕ) (k : Option ℕ) : ℕ → Option ℕ → ℕ :=
  fun j k2 => if j = i ∧ k2 = k then f j k2 + 1 else f j k2

/-- `STATS['control_packets_sent'][i][t] += 1`. -/
def bumpPkt (f : ℕ → PacketType → ℕ) (i : ℕ) (t : PacketType) : ℕ → PacketType → ℕ :=
  fun j t2 => if j = i ∧ t2 = t then f j t2 + 1 else f j t2

/-- `lia_update_psg_from_dio`: charge the `lia` cost, update the sender's
LIA entry (timestamp window, stability score, last advertised rank). -/
def lia_update_psg_from_dio (s : NodeState) (sender_id : ℕ) (rank : ERank)
    (now : ℚ) : NodeState :=
  let s1 := s.consumeE .lia
  { s1 with lia_data := fun j =>
      if j = sender_id then update_psg_entry (s1.lia_data sender_id) now rank
      else s1.lia_data j }

/-- `lia_get_psg_parent_score`'s frequency penalty: `-0.5` when the last
and third-from-last DIO timestamps are less than 10 time units apart. -/
def freq_penalty (e : LIAEntry) : ℚ :=
  if 3 ≤ e.psg_dio_timestamps.length then
    if e.psg_dio_timestamps.getD (e.psg_dio_timestamps.length - 1) 0
        - e.psg_dio_timestamps.getD (e.psg_dio_timestamps.length - 3) 0 < 10
    then -1/2 else 0
  else 0

/-- `lia_get_psg_parent_score`'s returned value (the method additionally
charges the `lia` energy cost, threaded separately).  A candidate rank of
`inf` makes the Python score `-inf`. -/
def parent_score (e : LIAEntry) (candidate_rank : ERank) : EScore :=
  match candidate_rank with
  | .inf => .ninf
  | .fin r => .fin (PSG_WEIGHT_RANK * (-r)
      + PSG_WEIGHT_STABILITY * e.psg_rank_stability_score
      + PSG_WEIGHT_LINK_QUALITY * (e.link_quality_rssi / (-40))
      + freq_penalty e)

/-- One `(p_id, p_rank, p_version)` triple of `potential_parents_info`. -/
structure PPInfo where
  pid : ℕ
  rank : ERank
  version : ℕ
deriving DecidableEq

/-- The `(best_parent_id, max_parent_utility)` accumulator of the loop in
`sdu_psg_select_parent`. -/
structure PSGAcc where
  best : Option ℕ
  maxU : EScore
deriving DecidableEq

/-- The candidate loop of `sdu_psg_select_parent`: skip candidates whose
advertised rank is not strictly below the node's rank, score the others
(charging the `lia` cost of `lia_get_psg_parent_score`), add the change
penalty for candidates other than the current parent, and keep the
strictly greatest utility. -/
def psg_loop (s : NodeState) : List PPInfo → EnergyState → PSGAcc → EnergyState × PSGAcc
  | [], es, acc => (es, acc)
  | info :: rest, es, acc =>
    if ERank.pyLe s.rpl_rank info.rank then psg_loop s rest es acc
    else
      let es1 := ceES es .lia
      let u0 := parent_score (s.lia_data info.pid) info.rank
      let u := if some info.pid ≠ s.rpl_parent_id then u0.addQ PSG_CHANGE_PENALTY else u0
      if acc.maxU.pyLt u then psg_loop s rest es1 ⟨some info.pid, u⟩
      else psg_loop s rest es1 acc

/-- Result record of `sdu_psg_select_parent`. -/
structure PSGOut where
  state : NodeState
  stats : Stats
  best : Option ℕ

/-- The candidate-evaluation stage of `sdu_psg_select_parent`: seed the
accumulator with the current parent's score when the parent is a known
neighbor (charging the `lia` cost of that evaluation), then run the
candidate loop; returns the node with the accumulated energy charges and
the winning id. -/
def psg_select_core (s1 : NodeState) (infos : List PPInfo) : NodeState × Option ℕ :=
  let init : EnergyState × PSGAcc :=
    match s1.rpl_parent_id with
    | some pid =>
      match lookupNbr s1.neighbors pid with
      | some nv => (ceES ⟨s1.energy, s1.alive⟩ .lia,
          ⟨some pid, parent_score (s1.lia_data pid) nv.rpl_rank⟩)
      | none => (⟨s1.energy, s1.alive⟩, ⟨none, .ninf⟩)
    | none => (⟨s1.energy, s1.alive⟩, ⟨none, .ninf⟩)
  let r := psg_loop s1 infos init.1 init.2
  ({ s1 with energy := r.1.energy, alive := r.1.alive }, r.2.best)

/-- The statistics writes at the end of `sdu_psg_select_parent`: record a
parent change when the winner differs from the current parent and is not
`None`, then tally the choice under the winner's key (`'None'` when the
winner is falsy). -/
def psg_select_stats_update (stats : Stats) (i : ℕ) (parent best : Option ℕ) : Stats :=
  let stats1 :=
    if best ≠ parent ∧ best ≠ none then
      { stats with rpl_parent_changes := bumpCtr stats.rpl_parent_changes i }
    else stats
  let tally := bumpKey stats1.sdu_psg_choices i (if pyTruthyId best then best else none)
  { stats1 with sdu_psg_choices := tally }

/-- `sdu_psg_select_parent`: charge the `sdu` cost; empty candidate list
returns `None` at once; otherwise evaluate the candidates and write the
statistics. -/
def sdu_psg_select_parent (s : NodeState) (stats : Stats) (infos : List PPInfo) : PSGOut :=
  let s1 := s.consumeE .sdu
  if infos.isEmpty then ⟨s1, stats, none⟩
  else
    let r := psg_select_core s1 infos
    ⟨r.1, psg_select_stats_update stats s1.id s1.rpl_parent_id r.2, r.2⟩

/-- `eu_send` of one forwarder candidate inside `sdu_pfg_select_forwarder`. -/
def eu_send (lia : ℕ → LIAEntry) (fw : ℕ) : ℚ :=
  let p := p_cooperate (lia fw)
  p * PFG_PAYOFF_SEND_COOPERATE + (1 - p) * PFG_PAYOFF_SEND_DEFECT

/-- The `(best_fw_id, max_eu, action_taken)` accumulator of the loop in
`sdu_pfg_select_forwarder`. -/
structure PFGAcc where
  best : Option ℕ
  maxEu : ℚ
  act : Action
deriving DecidableEq

/-- The candidate loop of `sdu_pfg_select_forwarder`: each iteration
charges the `lia` cost of `lia_get_pfg_p_cooperate` (the charge cannot
change the probability read from the LIA store) and keeps the candidate
of strictly greatest expected utility seen so far. -/
def pfg_loop (lia : ℕ → LIAEntry) : List ℕ → EnergyState → PFGAcc → EnergyState × PFGAcc
  | [], es, acc => (es, acc)
  | fw :: rest, es, acc =>
    if acc.maxEu < eu_send lia fw then
      pfg_loop lia rest (ceES es .lia) ⟨some fw, eu_send lia fw, .Send⟩
    else pfg_loop lia rest (ceES es .lia) acc

/-- Result record of `sdu_pfg_select_forwarder`. -/
structure PFGOut where
  state : NodeState
  stats : Stats
  best : Option ℕ
  act : Action

/-- `sdu_pfg_select_forwarder`: charge the `sdu` cost; an empty candidate
list returns `(None, 'Hold')` before the choice tally is touched;
otherwise run the candidate loop from the hold baseline and tally the
choice under the winning id (the `'Hold'` key when the winner is falsy). -/
def sdu_pfg_select_forwarder (s : NodeState) (stats : Stats) (packet : Packet)
    (candidate_fw_ids : List ℕ) : PFGOut :=
  let s1 := s.consumeE .sdu
  if candidate_fw_ids.isEmpty then ⟨s1, stats, none, .Hold⟩
  else
    let r := pfg_loop s1.lia_data candidate_fw_ids ⟨s1.energy, s1.alive⟩
      ⟨none, PFG_PAYOFF_HOLD, .Hold⟩
    let s2 := { s1 with energy := r.1.energy, alive := r.1.alive }
    let best := r.2.best
    let tally := bumpKey stats.sdu_pfg_choices s1.id (if pyTruthyId best then best else none)
    let stats1 := { stats with sdu_pfg_choices := tally }
    ⟨s2, stats1, best, r.2.act⟩

/-- Result record of `handle_dio`. -/
structure DioOut where
  state : NodeState
  stats : Stats

/-- The adoption tail of `handle_dio`: Python's
`if new_parent_id and new_parent_id == sender_id:` (truthiness makes the
sink id `0` never adoptable here), then assign the parent, set
`rpl_rank = sender_rank + 1` and bump `rpl_parent_changes` when the old
parent differs. -/
def dio_adopt (s : NodeState) (stats : Stats) (newp : Option ℕ) (sender_id : ℕ)
    (sender_rank : ERank) : DioOut :=
  if pyTruthyId newp = true ∧ newp = some sender_id then
    let s2 := { s with rpl_parent_id := newp, rpl_rank := sender_rank.addQ 1 }
    let stats2 :=
      if s.rpl_parent_id ≠ newp then
        { stats with rpl_parent_changes := bumpCtr stats.rpl_parent_changes s.id }
      else stats
    ⟨s2, stats2⟩
  else ⟨s, stats⟩

/-- `handle_dio`: update the sender's LIA PSG state; a `rpl_rank` attacker
stops there; otherwise run parent selection with the sender as sole
candidate and adopt per `dio_adopt`. -/
def handle_dio (s : NodeState) (stats : Stats) (sender_id : ℕ) (sender_rank : ERank)
    (sender_version : ℕ) (now : ℚ) : DioOut :=
  let s1 := lia_update_psg_from_dio s sender_id sender_rank now
  if s1.is_attacker_type = some AttackerType.rpl_rank then ⟨s1, stats⟩
  else
    let r := sdu_psg_select_parent s1 stats [⟨sender_id, sender_rank, sender_version⟩]
    dio_adopt r.state r.stats r.best sender_id sender_rank

/-- Result record of `handle_data_packet`: the updated node and stats, the
boolean the Python method returns, and the forwards it schedules through
`_send_message` (receiver id and packet as re-transmitted). -/
structure HDPOut where
  state : NodeState
  stats : Stats
  result : Bool
  sends : List (ℕ × Packet)

/-- The id list `list(self.neighbors.keys())` built by
`handle_data_packet` as the forwarder candidate set. -/
def allNeighborIds (s : NodeState) : List ℕ := s.neighbors.map Prod.fst

/-- The ids of the node's currently alive neighbors (the candidate set the
spec prescribes for data-plane forwarding). -/
def liveNeighborIds (s : NodeState) : List ℕ :=
  ((s.neighbors.filter (fun p => p.2.alive)).map Prod.fst)

/-- The non-destination branch of `handle_data_packet`, parameterized by
the candidate id list handed to `sdu_pfg_select_forwarder`: on `'Send'`
with a chosen forwarder, append self to the path and schedule the
re-transmission; otherwise count the drop under
`STATS["packets_dropped_selfish"]`. -/
def hdp_forward (s : NodeState) (stats : Stats) (packet : Packet)
    (candidate_fw_ids : List ℕ) : HDPOut :=
  let r := sdu_pfg_select_forwarder s stats packet candidate_fw_ids
  match r.act, r.best with
  | .Send, some next_hop =>
    let packet2 := { packet with path := packet.path ++ [r.state.id] }
    ⟨r.state, r.stats, true, [(next_hop, packet2)]⟩
  | _, _ =>
    ⟨r.state, { r.stats with packets_dropped_selfish := r.stats.packets_dropped_selfish + 1 },
      false, []⟩

/-- `handle_data_packet`: at the destination, count the delivery and add
the end-to-end delay; otherwise forward over `list(self.neighbors.keys())`
per `hdp_forward`. -/
def handle_data_packet (s : NodeState) (stats : Stats) (packet : Packet) (now : ℚ) : HDPOut :=
  if s.id = packet.dest_id then
    let stats2 := { stats with
      packets_received_dest := stats.packets_received_dest + 1,
      total_delay := stats.total_delay + (now - packet.creation_time) }
    ⟨s, stats2, true, []⟩
  else hdp_forward s stats packet (allNeighborIds s)

/-- `handle_data_packet` as the spec's data-plane sentence words it, with
the forwarder candidate set restricted to live neighbors.  Declared for
comparison with the source-derived `handle_data_packet` above. -/
def handle_data_packet_livenbrs (s : NodeState) (stats : Stats) (packet : Packet)
    (now : ℚ) : HDPOut :=
  if s.id = packet.dest_id then
    let stats2 := { stats with
      packets_received_dest := stats.packets_received_dest + 1,
      total_delay := stats.total_delay + (now - packet.creation_time) }
    ⟨s, stats2, true, []⟩
  else hdp_forward s stats packet (liveNeighborIds s)

/-- The body of a received message, as dispatched by `_receive_message`. -/
inductive MsgBody where
  | data (pkt : Packet)
  | dio (rank : ERank) (version : ℕ)
  | ack
  | report
deriving DecidableEq

/-- The packet type tag of a message body. -/
def MsgBody.ptype : MsgBody → PacketType
  | .data _ => .data
  | .dio _ _ => .dio
  | .ack => .ack
  | .report => .report

/-- Result record of `_receive_message`: `result` is the Python return
value (`none` models Python `None`, returned on the DIO/ACK/REPORT
branches), and `sends` the forwards scheduled while handling. -/
structure RecvOut where
  state : NodeState
  stats : Stats
  result : Option Bool
  sends : List (ℕ × Packet)

/-- `_receive_message`: a dead node returns `False` at once (no energy
charge, no dispatch); otherwise charge the receive cost and dispatch by
packet type. -/
def receive_message (s : NodeState) (stats : Stats) (body : MsgBody) (sender_id : ℕ)
    (now : ℚ) : RecvOut :=
  if s.alive = false then ⟨s, stats, some false, []⟩
  else
    let s1 := s.consumeE (match body with | .data _ => .rx_pkt | _ => .rx_ctrl)
    match body with
    | .data pkt =>
      let r := handle_data_packet s1 stats pkt now
      ⟨r.state, r.stats, some r.result, r.sends⟩
    | .dio rank ver =>
      let r := handle_dio s1 stats sender_id rank ver now
      ⟨r.state, r.stats, none, []⟩
    | .ack => ⟨s1, stats, none, []⟩
    | .report => ⟨s1, stats, none, []⟩

/-- The deterministic prefix of `_send_message`: charge the transmit cost
and count the send — with no aliveness check anywhere in the method.  The
subsequent distance-proportional delay and the 2% loss draw are stochastic
and outside this embedding. -/
def send_message_pre (s : NodeState) (stats : Stats) (ptype : PacketType) :
    NodeState × Stats :=
  let s1 := s.consumeE (match ptype with | .data => .tx_pkt | _ => .tx_ctrl)
  (s1, { stats with control_packets_sent := bumpPkt stats.control_packets_sent s1.id ptype })

/-- The targets to which `broadcast_dio` schedules `_send_message` calls:
nothing when the broadcaster is dead, else every alive neighbor. -/
def broadcast_dio_targets (s : NodeState) : List ℕ :=
  if s.alive = false then [] else liveNeighborIds s

/-! ### Concrete states used by witnesses and counterexamples -/

/-- A zeroed statistics record. -/
def stats0 : Stats :=
  ⟨0, 0, 0, 0, 0, fun _ => 0, fun _ _ => 0, fun _ _ => 0, fun _ _ => 0⟩

/-- A DATA packet headed for the sink, originated by node 4. -/
def pkt0 : Packet := { dest_id := 0, creation_time := 0, path := [4] }

/-- A fresh benign node with id 7 and no neighbors. -/
def node7 : NodeState :=
  { id := 7
    is_attacker_type := none
    energy := 100
    alive := true
    rpl_parent_id := none
    rpl_rank := .inf
    lia_data := fun _ => defaultLIAEntry (-60)
    neighbors := [] }

/-- An LIA entry with five cooperations, one defection and a last outcome
of Cooperate. -/
def entryCoop : LIAEntry :=
  { pfg_last_outcome := some .Cooperate
    pfg_coop_count := 5
    pfg_defect_count := 0
    psg_last_rank_advertised := none
    psg_rank_stability_score := 1
    psg_dio_timestamps := []
    link_quality_rssi := -60 }

/-- An LIA entry with a prior advertised rank 3, stability 1/2 and a full
five-slot recency window. -/
def entryJump : LIAEntry :=
  { pfg_last_outcome := none
    pfg_coop_count := 0
    pfg_defect_count := 0
    psg_last_rank_advertised := some (.fin 3)
    psg_rank_stability_score := 1/2
    psg_dio_timestamps := [1, 2, 3, 4, 5]
    link_quality_rssi := -60 }

/-- A node with a single alive neighbor, used by the C3 amended witness. -/
def c3wState : NodeState :=
  { id := 7
    is_attacker_type := none
    energy := 100
    alive := true
    rpl_parent_id := none
    rpl_rank := .fin 3
    lia_data := fun _ => defaultLIAEntry (-60)
    neighbors := [(4, { alive := true, rpl_rank := .fin 1, is_attacker_type := none })] }

/-! ### Projection lemmas for the state-threading helpers -/

@[simp] lemma consumeE_id (s : NodeState) (c : CostType) : (s.consumeE c).id = s.id := rfl

@[simp] lemma consumeE_attacker (s : NodeState) (c : CostType) :
    (s.consumeE c).is_attacker_type = s.is_attacker_type := rfl

@[simp] lemma consumeE_parent (s : NodeState) (c : CostType) :
    (s.consumeE c).rpl_parent_id = s.rpl_parent_id := rfl

@[simp] lemma consumeE_rank (s : NodeState) (c : CostType) :
    (s.consumeE c).rpl_rank = s.rpl_rank := rfl

@[simp] lemma consumeE_lia (s : NodeState) (c : CostType) :
    (s.consumeE c).lia_data = s.lia_data := rfl

@[simp] lemma consumeE_neighbors (s : NodeState) (c : CostType) :
    (s.consumeE c).neighbors = s.neighbors := rfl

@[simp] lemma lia_update_id (s : NodeState) (i : ℕ) (r : ERank) (t : ℚ) :
    (lia_update_psg_from_dio s i r t).id = s.id := rfl

@[simp] lemma lia_update_attacker (s : NodeState) (i : ℕ) (r : ERank) (t : ℚ) :
    (lia_update_psg_from_dio s i r t).is_attacker_type = s.is_attacker_type := rfl

@[simp] lemma lia_update_parent (s : NodeState) (i : ℕ) (r : ERank) (t : ℚ) :
    (lia_update_psg_from_dio s i r t).rpl_parent_id = s.rpl_parent_id := rfl

@[simp] lemma lia_update_rank (s : NodeState) (i : ℕ) (r : ERank) (t : ℚ) :
    (lia_update_psg_from_dio s i r t).rpl_rank = s.rpl_rank := rfl

@[simp] lemma lia_update_neighbors (s : NodeState) (i : ℕ) (r : ERank) (t : ℚ) :
    (lia_update_psg_from_dio s i r t).neighbors = s.neighbors := rfl

/-! ### C5: the energy model -/

/-- C5: for every node, energy is non-increasing under `consume_energy`
(for the non-negative costs the run uses) and clamped at 0; the call is a
no-op on an inert node; the call that makes energy reach or cross zero
sets it to exactly 0, clears `alive`, and raises the interrupt with cause
`"energy_depleted"`; and `consume_energy` never revives a node. -/
theorem c5_consume_energy_monotone_clamped (energy : ℚ) (alive : Bool) (c : CostType)
    (amount : Option ℚ) (hcost : 0 ≤ amount.getD (cost_map c)) (h0 : 0 ≤ energy) :
    (consume_energy energy alive c amount).energy ≤ energy
    ∧ 0 ≤ (consume_energy energy alive c amount).energy
    ∧ (alive = false → consume_energy energy alive c amount = ⟨energy, alive, none⟩)
    ∧ (alive = true → energy - amount.getD (cost_map c) ≤ 0 →
        consume_energy energy alive c amount = ⟨0, false, some "energy_depleted"⟩)
    ∧ ((consume_energy energy alive c amount).alive = true → alive = true) := by
  unfold consume_energy
  split_ifs with h1 h2
  · exact ⟨le_refl _, h0, fun _ => rfl, fun h _ => absurd h1 (by simp [h]), fun h => h⟩
  · exact ⟨h0, le_refl _, fun h => absurd h h1, fun _ _ => rfl, fun h => nomatch h⟩
  · have hb : alive = true := by revert h1; cases alive <;> simp
    refine ⟨?_, ?_, fun h => absurd h h1, fun _ hc2 => absurd hc2 h2, fun _ => hb⟩
    · show energy - amount.getD (cost_map c) ≤ energy
      linarith
    · show 0 ≤ energy - amount.getD (cost_map c)
      linarith [not_le.mp h2]

/-- C5 witness: a live node with 3/100 energy pays the receive cost 2/100
and stays alive with 1/100; a live node with 1/100 energy crossing zero on
the same cost is clamped to 0, marked dead, and interrupted with cause
`"energy_depleted"`. -/
theorem c5_witness :
    (consume_energy (3/100) true CostType.rx_pkt none).energy ≤ 3/100
    ∧ consume_energy (1/100) true CostType.rx_pkt none = ⟨0, false, some "energy_depleted"⟩ := by
  refine ⟨(c5_consume_energy_monotone_clamped (3/100) true CostType.rx_pkt none (by norm_num [cost_map, E_RX_PKT]) (by norm_num)).1, ?_⟩
  exact (c5_consume_energy_monotone_clamped (1/100) true CostType.rx_pkt none (by norm_num [cost_map, E_RX_PKT]) (by norm_num)).2.2.2.1 rfl (by norm_num [cost_map, E_RX_PKT])

/-! ### C6: pCooperate -/

/-- C6: `lia_get_pfg_p_cooperate` returns exactly 1/2 when the neighbor's
cooperate and defect counts are both zero; otherwise it returns the
empirical cooperate ratio scaled by 0.3 and floored at 0.01 when the last
outcome was Defect, and scaled by 1.1 plus 0.2 capped at 0.99 when the
last outcome was Cooperate; and the returned value always lies in
[0.01, 0.99]. -/
theorem c6_p_cooperate_formula (e : LIAEntry) :
    (e.pfg_coop_count + e.pfg_defect_count = 0 → p_cooperate e = 1/2)
    ∧ (e.pfg_coop_count + e.pfg_defect_count ≠ 0 →
        e.pfg_last_outcome = some Outcome.Defect →
        p_cooperate e = max (1/100)
          ((e.pfg_coop_count : ℚ) / ((e.pfg_coop_count : ℚ) + (e.pfg_defect_count : ℚ)) * (3/10)))
    ∧ (e.pfg_coop_count + e.pfg_defect_count ≠ 0 →
        e.pfg_last_outcome = some Outcome.Cooperate →
        p_cooperate e = min (99/100)
          ((e.pfg_coop_count : ℚ) / ((e.pfg_coop_count : ℚ) + (e.pfg_defect_count : ℚ)) * (11/10) + 2/10))
    ∧ 1/100 ≤ p_cooperate e ∧ p_cooperate e ≤ 99/100 := by
  by_cases ht : e.pfg_coop_count + e.pfg_defect_count = 0
  · refine ⟨fun _ => by simp [p_cooperate, ht], fun h => absurd ht h, fun h => absurd ht h, ?_, ?_⟩
    · rw [show p_cooperate e = 1/2 from by simp [p_cooperate, ht]]; norm_num
    · rw [show p_cooperate e = 1/2 from by simp [p_cooperate, ht]]; norm_num
  · have htq : (0 : ℚ) < (e.pfg_coop_count : ℚ) + (e.pfg_defect_count : ℚ) := by
      have : 0 < e.pfg_coop_count + e.pfg_defect_count := Nat.pos_of_ne_zero ht
      exact_mod_cast this
    have hb0 : (0 : ℚ) ≤ (e.pfg_coop_count : ℚ) / ((e.pfg_coop_count : ℚ) + (e.pfg_defect_count : ℚ)) :=
      div_nonneg (by exact_mod_cast Nat.zero_le _) (le_of_lt htq)
    have hb1 : (e.pfg_coop_count : ℚ) / ((e.pfg_coop_count : ℚ) + (e.pfg_defect_count : ℚ)) ≤ 1 := by
      rw [div_le_one htq]; linarith [(by exact_mod_cast Nat.zero_le _ : (0:ℚ) ≤ (e.pfg_defect_count : ℚ))]
    have hcast : ((e.pfg_coop_count + e.pfg_defect_count : ℕ) : ℚ)
        = (e.pfg_coop_count : ℚ) + (e.pfg_defect_count : ℚ) := by push_cast; ring
    refine ⟨fun h => absurd h ht, ?_, ?_, ?_, ?_⟩
    · intro _ hlast
      simp only [p_cooperate, ht, if_false, hlast, hcast, reduceIte]
      rw [← max_assoc, max_self]
      have hle : (e.pfg_coop_count : ℚ) / ((e.pfg_coop_count : ℚ) + (e.pfg_defect_count : ℚ)) * (3/10) ≤ 3/10 := by
        nlinarith
      rw [min_eq_right]
      rw [max_le_iff]
      constructor <;> linarith
    · intro _ hlast
      simp only [p_cooperate, ht, if_false, hlast, hcast, reduceIte]
      have hge : (1:ℚ)/100 ≤ min (99/100)
          ((e.pfg_coop_count : ℚ) / ((e.pfg_coop_count : ℚ) + (e.pfg_defect_count : ℚ)) * (11/10) + 2/10) := by
        rw [le_min_iff]
        constructor <;> nlinarith
      rw [max_eq_right hge, min_eq_right (min_le_left _ _)]
    · simp only [p_cooperate, ht, if_false, reduceIte]
      exact le_min (by norm_num) (le_max_left _ _)
    · simp only [p_cooperate, ht, if_false, reduceIte]
      exact min_le_left _ _

/-- C6 witness: a neighbor with 5 cooperations, 0 defections and a last
outcome of Cooperate yields `min 0.99 (1 * 1.1 + 0.2) = 0.99`, inside the
clamp interval. -/
theorem c6_witness :
    p_cooperate entryCoop = min (99/100)
      ((entryCoop.pfg_coop_count : ℚ)
        / ((entryCoop.pfg_coop_count : ℚ) + (entryCoop.pfg_defect_count : ℚ)) * (11/10) + 2/10)
    ∧ 1/100 ≤ p_cooperate entryCoop ∧ p_cooperate entryCoop ≤ 99/100 :=
  ⟨(c6_p_cooperate_formula entryCoop).2.2.1 (by decide) rfl,
   (c6_p_cooperate_formula entryCoop).2.2.2.1,
   (c6_p_cooperate_formula entryCoop).2.2.2.2⟩

/-! ### C9: the PSG advertisement update -/

lemma dequeAppend_eq_drop (l : List ℚ) (x : ℚ) :
    dequeAppend l x = (l ++ [x]).drop ((l ++ [x]).length - 5) := by
  unfold dequeAppend
  split
  · next h => rw [Nat.sub_eq_zero_of_le h, List.drop_zero]
  · rfl

lemma dequeAppend_length (l : List ℚ) (x : ℚ) :
    (dequeAppend l x).length = min (l.length + 1) 5 := by
  rw [dequeAppend_eq_drop, List.length_drop, List.length_append]
  simp only [List.length_singleton]
  omega

/-- The stability-score component of `update_psg_entry`, as a function of
the prior advertised rank. -/
def updatedStability (score : ℚ) (rank : ERank) : Option ERank → ℚ
  | none => score
  | some lastr =>
    if rankJumpGT2 rank lastr then score * (8/10)
    else min 1 (score * (105/100) + 5/100)

lemma rankJumpGT2_fin (a b : ℚ) :
    rankJumpGT2 (.fin a) (.fin b) = decide (2 < |a - b|) := rfl

lemma update_psg_entry_eq (e : LIAEntry) (now : ℚ) (rank : ERank) :
    update_psg_entry e now rank =
      { e with
        psg_dio_timestamps := dequeAppend e.psg_dio_timestamps now
        psg_last_rank_advertised := some rank
        psg_rank_stability_score :=
          updatedStability e.psg_rank_stability_score rank e.psg_last_rank_advertised } := by
  obtain ⟨lo, cc, dc, plra, ss, ts, lq⟩ := e
  unfold update_psg_entry updatedStability
  rcases plra with _ | lastr
  · rfl
  · by_cases hj : rankJumpGT2 rank lastr = true <;> simp [hj]

/-- C9: `lia_update_psg_from_dio` appends the current time to a recency
window of bounded length 5 (oldest dropped on overflow); with a prior
advertised finite rank it multiplies the stability score by 0.8 when the
absolute rank change exceeds 2, else sets it to `min 1 (score*1.05+0.05)`;
the new rank is stored as last-advertised; and a stability score in [0, 1]
stays in [0, 1]. -/
theorem c9_update_psg_window_stability (e : LIAEntry) (now : ℚ) (rank : ERank)
    (h0 : 0 ≤ e.psg_rank_stability_score) (h1 : e.psg_rank_stability_score ≤ 1) :
    (update_psg_entry e now rank).psg_dio_timestamps
        = (e.psg_dio_timestamps ++ [now]).drop ((e.psg_dio_timestamps ++ [now]).length - 5)
    ∧ (update_psg_entry e now rank).psg_dio_timestamps.length
        = min (e.psg_dio_timestamps.length + 1) 5
    ∧ (∀ a b : ℚ, rank = ERank.fin a → e.psg_last_rank_advertised = some (ERank.fin b) →
        (update_psg_entry e now rank).psg_rank_stability_score
          = if 2 < |a - b| then e.psg_rank_stability_score * (8/10)
            else min 1 (e.psg_rank_stability_score * (105/100) + 5/100))
    ∧ (e.psg_last_rank_advertised = none →
        (update_psg_entry e now rank).psg_rank_stability_score = e.psg_rank_stability_score)
    ∧ (update_psg_entry e now rank).psg_last_rank_advertised = some rank
    ∧ 0 ≤ (update_psg_entry e now rank).psg_rank_stability_score
    ∧ (update_psg_entry e now rank).psg_rank_stability_score ≤ 1 := by
  have hs08₀ : 0 ≤ e.psg_rank_stability_score * (8/10) := by nlinarith
  have hs08₁ : e.psg_rank_stability_score * (8/10) ≤ 1 := by nlinarith
  have hsm₀ : 0 ≤ min 1 (e.psg_rank_stability_score * (105/100) + 5/100) := by
    rw [le_min_iff]; constructor <;> nlinarith
  have hsm₁ : min 1 (e.psg_rank_stability_score * (105/100) + 5/100) ≤ 1 := min_le_left _ _
  rw [update_psg_entry_eq e now rank]
  refine ⟨by rw [dequeAppend_eq_drop], by rw [dequeAppend_length], ?_, ?_, rfl, ?_, ?_⟩
  · intro a b ha hb
    show updatedStability e.psg_rank_stability_score rank e.psg_last_rank_advertised = _
    rw [ha, hb]
    simp only [updatedStability, rankJumpGT2_fin]
    by_cases habs : 2 < |a - b|
    · rw [if_pos (by simpa using habs), if_pos habs]
    · rw [if_neg (by simpa using habs), if_neg habs]
  · intro hn
    show updatedStability e.psg_rank_stability_score rank e.psg_last_rank_advertised = _
    rw [hn]
    rfl
  · show 0 ≤ updatedStability e.psg_rank_stability_score rank e.psg_last_rank_advertised
    rcases e.psg_last_rank_advertised with _ | lastr
    · exact h0
    · simp only [updatedStability]
      by_cases hj : rankJumpGT2 rank lastr = true
      · rw [if_pos hj]; exact hs08₀
      · rw [if_neg hj]; exact hsm₀
  · show updatedStability e.psg_rank_stability_score rank e.psg_last_rank_advertised ≤ 1
    rcases e.psg_last_rank_advertised with _ | lastr
    · exact h1
    · simp only [updatedStability]
      by_cases hj : rankJumpGT2 rank lastr = true
      · rw [if_pos hj]; exact hs08₁
      · rw [if_neg hj]; exact hsm₁

/-- C9 witness: an entry with stability 1/2, last advertised rank 3 and a
full five-slot window, receiving rank 10 (a jump of 7 > 2) at time 6:
the score is multiplied by 0.8 and the window stays at length 5. -/
theorem c9_witness :
    (update_psg_entry entryJump 6 (ERank.fin 10)).psg_rank_stability_score
      = (if 2 < |(10 : ℚ) - 3| then entryJump.psg_rank_stability_score * (8/10)
         else min 1 (entryJump.psg_rank_stability_score * (105/100) + 5/100))
    ∧ (update_psg_entry entryJump 6 (ERank.fin 10)).psg_dio_timestamps.length
      = min (entryJump.psg_dio_timestamps.length + 1) 5 :=
  ⟨(c9_update_psg_window_stability entryJump 6 (ERank.fin 10) (by norm_num [entryJump])
      (by norm_num [entryJump])).2.2.1 10 3 rfl rfl,
   (c9_update_psg_window_stability entryJump 6 (ERank.fin 10) (by norm_num [entryJump])
      (by norm_num [entryJump])).2.1⟩

/-! ### C10: the empty-candidate frame of PFG selection -/

/-- C10: called with an empty candidate list, `sdu_pfg_select_forwarder`
returns `(None, 'Hold')` after charging the `sdu` decision cost, and
leaves the statistics record — in particular the per-node
`sdu_pfg_choices` tallies — completely unchanged; consequently any call
that changes the choice tallies had a non-empty candidate list. -/
theorem c10_pfg_empty_no_tally (s : NodeState) (stats : Stats) (packet : Packet) :
    (sdu_pfg_select_forwarder s stats packet []).best = none
    ∧ (sdu_pfg_select_forwarder s stats packet []).act = Action.Hold
    ∧ (sdu_pfg_select_forwarder s stats packet []).state = s.consumeE CostType.sdu
    ∧ (sdu_pfg_select_forwarder s stats packet []).stats = stats
    ∧ (∀ cands : List ℕ,
        (sdu_pfg_select_forwarder s stats packet cands).stats.sdu_pfg_choices
          ≠ stats.sdu_pfg_choices → cands ≠ []) := by
  refine ⟨rfl, rfl, rfl, rfl, ?_⟩
  intro cands h hc
  subst hc
  exact h rfl

/-- C10 witness: the empty-candidate frame at a concrete node and a fresh
statistics record. -/
theorem c10_witness :
    (sdu_pfg_select_forwarder node7 stats0 pkt0 []).best = none
    ∧ (sdu_pfg_select_forwarder node7 stats0 pkt0 []).act = Action.Hold
    ∧ (sdu_pfg_select_forwarder node7 stats0 pkt0 []).stats = stats0 :=
  ⟨(c10_pfg_empty_no_tally node7 stats0 pkt0).1,
   (c10_pfg_empty_no_tally node7 stats0 pkt0).2.1,
   (c10_pfg_empty_no_tally node7 stats0 pkt0).2.2.2.1⟩

/-! ### C2: blackhole drops are never attributed to the blackhole counter -/

/-- A node whose sole neighbor (and hence sole forwarder candidate) is a
blackhole-variant node with no recorded interactions. -/
def c2State : NodeState :=
  { id := 7
    is_attacker_type := none
    energy := 100
    alive := true
    rpl_parent_id := none
    rpl_rank := .fin 3
    lia_data := fun _ => defaultLIAEntry (-60)
    neighbors := [(9, { alive := true, rpl_rank := .fin 2, is_attacker_type := some .blackhole })] }

/-- C2: evaluating `handle_data_packet` at a non-destination node whose
sole forwarder candidate is a blackhole-variant neighbor (the neutral
prior makes every candidate's expected utility `-3.5 < -0.1`, so the
decision is Hold): the packet is dropped, but the drop is counted under
`packets_dropped_selfish`, and `packets_dropped_blackhole` stays at 0 —
the code attributes every data-plane drop to the selfish counter and
contains no blackhole branch at all. -/
theorem c2_blackhole_drop_misattributed :
    allNeighborIds c2State = [9]
    ∧ (lookupNbr c2State.neighbors 9).map NbrView.is_attacker_type
        = some (some AttackerType.blackhole)
    ∧ (handle_data_packet c2State stats0 pkt0 0).result = false
    ∧ (handle_data_packet c2State stats0 pkt0 0).sends = []
    ∧ (handle_data_packet c2State stats0 pkt0 0).stats.packets_dropped_selfish = 1
    ∧ (handle_data_packet c2State stats0 pkt0 0).stats.packets_dropped_blackhole = 0 := by
  refine ⟨rfl, rfl, ?_, ?_, ?_, ?_⟩ <;>
    norm_num [handle_data_packet, hdp_forward, allNeighborIds, sdu_pfg_select_forwarder,
      NodeState.consumeE, consume_energy, cost_map, ceES, pfg_loop, eu_send, p_cooperate,
      pyTruthyId, bumpKey, c2State, stats0, pkt0, defaultLIAEntry, PFG_PAYOFF_HOLD,
      PFG_PAYOFF_SEND_COOPERATE, PFG_PAYOFF_SEND_DEFECT, E_SDU_COMPUTE, E_LIA_UPDATE]

/-! ### C3: the forwarder candidate set ignores neighbor liveness -/

/-- A node whose only neighbor is dead but has a perfect cooperation
record, so PFG selection would forward to it. -/
def c3State : NodeState :=
  { id := 7
    is_attacker_type := none
    energy := 100
    alive := true
    rpl_parent_id := none
    rpl_rank := .fin 3
    lia_data := fun j => if j = 9 then entryCoop else defaultLIAEntry (-60)
    neighbors := [(9, { alive := false, rpl_rank := .fin 2, is_attacker_type := none })] }

/-- C3 counterexample: with the sole neighbor dead, the live-neighbor set
is empty, yet `handle_data_packet` still hands the dead neighbor to PFG
selection and schedules a re-transmission to it, while the spec-worded
live-neighbor variant holds and drops the packet. -/
theorem c3_counterexample_dead_neighbor :
    liveNeighborIds c3State = []
    ∧ allNeighborIds c3State = [9]
    ∧ (handle_data_packet c3State stats0 pkt0 0).sends ≠ []
    ∧ (handle_data_packet c3State stats0 pkt0 0).result = true
    ∧ (handle_data_packet_livenbrs c3State stats0 pkt0 0).sends = []
    ∧ (handle_data_packet_livenbrs c3State stats0 pkt0 0).result = false := by
  refine ⟨rfl, rfl, ?_, ?_, ?_, ?_⟩ <;>
    norm_num [handle_data_packet, handle_data_packet_livenbrs, hdp_forward, allNeighborIds,
      liveNeighborIds, sdu_pfg_select_forwarder, NodeState.consumeE, consume_energy, cost_map,
      ceES, pfg_loop, eu_send, p_cooperate, pyTruthyId, bumpKey, c3State, entryCoop, stats0,
      pkt0, defaultLIAEntry, PFG_PAYOFF_HOLD, PFG_PAYOFF_SEND_COOPERATE,
      PFG_PAYOFF_SEND_DEFECT, E_SDU_COMPUTE, E_LIA_UPDATE]

/-- C3 amended: the candidate set handed to PFG forwarder selection by a
non-destination node is exactly the ids of all of the node's neighbors,
with no liveness filter; when every neighbor happens to be alive this
coincides with the spec's live-neighbor candidate set. -/
theorem c3_candidates_all_neighbors (s : NodeState) (stats : Stats) (packet : Packet) (now : ℚ) :
    (s.id ≠ packet.dest_id →
      handle_data_packet s stats packet now = hdp_forward s stats packet (allNeighborIds s))
    ∧ ((∀ p ∈ s.neighbors, p.2.alive = true) →
      handle_data_packet s stats packet now = handle_data_packet_livenbrs s stats packet now) := by
  constructor
  · intro h
    unfold handle_data_packet
    rw [if_neg h]
  · intro hall
    have hsame : liveNeighborIds s = allNeighborIds s := by
      unfold liveNeighborIds allNeighborIds
      rw [List.filter_eq_self.mpr hall]
    unfold handle_data_packet handle_data_packet_livenbrs
    rw [hsame]

/-- C3 amended witness: at a node with one alive neighbor, the source
handler agrees with both the all-neighbors form and the live-neighbor
spec variant. -/
theorem c3_amended_witness :
    handle_data_packet c3wState stats0 pkt0 0 = hdp_forward c3wState stats0 pkt0 (allNeighborIds c3wState)
    ∧ handle_data_packet c3wState stats0 pkt0 0 = handle_data_packet_livenbrs c3wState stats0 pkt0 0 :=
  ⟨(c3_candidates_all_neighbors c3wState stats0 pkt0 0).1 (by decide),
   (c3_candidates_all_neighbors c3wState stats0 pkt0 0).2 (by decide)⟩

/-! ### C1: rank relation at parent adoption -/

lemma ERank.pyLt_of_pyLe_false (a b : ERank) (h : ERank.pyLe b a = false) :
    ERank.pyLt a b = true := by
  cases a <;> cases b <;> simp [ERank.pyLe, ERank.pyLt] at * <;> linarith

lemma none_eq_some_attacker (a : AttackerType) :
    ((none : Option AttackerType) = some a) = False := by simp

lemma none_eq_some_nat (n : ℕ) : ((none : Option ℕ) = some n) = False := by simp

lemma some_nat_eq_none (n : ℕ) : ((some n : Option ℕ) = none) = False := by simp

/-- If singleton parent selection returns the candidate and the candidate
is not the current parent, the candidate survived the strict rank filter:
its advertised rank was not `>=` the node's rank. -/
lemma psg_select_single_filter (s : NodeState) (stats : Stats) (info : PPInfo)
    (hsel : (sdu_psg_select_parent s stats [info]).best = some info.pid)
    (hnp : s.rpl_parent_id ≠ some info.pid) :
    ERank.pyLe s.rpl_rank info.rank = false := by
  by_contra h
  have hskip : ERank.pyLe s.rpl_rank info.rank = true := by
    revert h; cases ERank.pyLe s.rpl_rank info.rank <;> simp
  unfold sdu_psg_select_parent psg_select_core at hsel
  rw [if_neg (by simp)] at hsel
  rcases hp : s.rpl_parent_id with _ | pid
  · simp only [consumeE_parent, consumeE_rank, consumeE_neighbors, consumeE_lia, hp,
      psg_loop, hskip, if_true] at hsel
    cases hsel
  · rcases hn : lookupNbr s.neighbors pid with _ | nv
    · simp only [consumeE_parent, consumeE_rank, consumeE_neighbors, consumeE_lia, hp, hn,
        psg_loop, hskip, if_true] at hsel
      cases hsel
    · simp only [consumeE_parent, consumeE_rank, consumeE_neighbors, consumeE_lia, hp, hn,
        psg_loop, hskip, if_true] at hsel
      rw [Option.some_inj] at hsel
      exact hnp (by rw [hp, hsel])

/-- C1 amended: whenever `handle_dio` adopts the DIO sender as parent
(singleton parent selection returned the sender and the sender id is
truthy), the node's rank immediately after adoption equals the sender's
advertised rank plus 1; and when the sender was not already the node's
current parent, the sender's advertised rank was strictly less than the
node's rank at evaluation time.  (The strict-rank part does not hold when
the sender is the retained current parent — see the counterexample.) -/
theorem c1_adoption_rank (s : NodeState) (stats : Stats) (sender_id : ℕ) (sender_rank : ERank)
    (ver : ℕ) (now : ℚ)
    (hatk : s.is_attacker_type ≠ some AttackerType.rpl_rank)
    (hsel : (sdu_psg_select_parent (lia_update_psg_from_dio s sender_id sender_rank now) stats
        [⟨sender_id, sender_rank, ver⟩]).best = some sender_id)
    (hs0 : sender_id ≠ 0) :
    (handle_dio s stats sender_id sender_rank ver now).state.rpl_parent_id = some sender_id
    ∧ (handle_dio s stats sender_id sender_rank ver now).state.rpl_rank = sender_rank.addQ 1
    ∧ (s.rpl_parent_id ≠ some sender_id → ERank.pyLt sender_rank s.rpl_rank = true) := by
  refine ⟨?_, ?_, ?_⟩
  · simp only [handle_dio, lia_update_attacker]
    rw [if_neg hatk, hsel]
    unfold dio_adopt
    rw [if_pos ⟨by simp [pyTruthyId, hs0], rfl⟩]
  · simp only [handle_dio, lia_update_attacker]
    rw [if_neg hatk, hsel]
    unfold dio_adopt
    rw [if_pos ⟨by simp [pyTruthyId, hs0], rfl⟩]
  · intro hnp
    have hnp2 : (lia_update_psg_from_dio s sender_id sender_rank now).rpl_parent_id
        ≠ some sender_id := by rw [lia_update_parent]; exact hnp
    have hfil := psg_select_single_filter (lia_update_psg_from_dio s sender_id sender_rank now)
      stats ⟨sender_id, sender_rank, ver⟩ hsel hnp2
    rw [lia_update_rank] at hfil
    exact ERank.pyLt_of_pyLe_false sender_rank s.rpl_rank hfil

/-- A node currently attached to parent 5 with rank 3; parent 5 is a known
neighbor. -/
def c1cState : NodeState :=
  { id := 7
    is_attacker_type := none
    energy := 100
    alive := true
    rpl_parent_id := some 5
    rpl_rank := .fin 3
    lia_data := fun _ => defaultLIAEntry (-60)
    neighbors := [(5, { alive := true, rpl_rank := .fin 9, is_attacker_type := none })] }

/-- C1 counterexample: the current parent 5 advertises rank 10, far above
the node's rank 3.  Singleton selection still returns 5 (the candidate is
rank-filtered out, but the current-parent seeding keeps it), `handle_dio`
re-adopts it and sets the node's rank to 11 — so the adopted parent's
advertised rank was NOT strictly less than the node's rank at evaluation
time. -/
theorem c1_counterexample_kept_parent :
    (sdu_psg_select_parent (lia_update_psg_from_dio c1cState 5 (ERank.fin 10) 0) stats0
        [⟨5, ERank.fin 10, 1⟩]).best = some 5
    ∧ (handle_dio c1cState stats0 5 (ERank.fin 10) 1 0).state.rpl_parent_id = some 5
    ∧ (handle_dio c1cState stats0 5 (ERank.fin 10) 1 0).state.rpl_rank = ERank.fin 11
    ∧ ERank.pyLt (ERank.fin 10) c1cState.rpl_rank = false := by
  refine ⟨?_, ?_, ?_, ?_⟩ <;>
    norm_num [handle_dio, dio_adopt, sdu_psg_select_parent, psg_select_core,
      psg_select_stats_update, lia_update_psg_from_dio,
      update_psg_entry, dequeAppend, psg_loop, parent_score, freq_penalty, lookupNbr,
      NodeState.consumeE, consume_energy, cost_map, ceES, pyTruthyId, bumpCtr, bumpKey,
      ERank.pyLe, ERank.pyLt, ERank.addQ, EScore.pyLt, EScore.addQ, c1cState, stats0,
      defaultLIAEntry, E_SDU_COMPUTE, E_LIA_UPDATE, PSG_WEIGHT_RANK, PSG_WEIGHT_STABILITY,
      PSG_WEIGHT_LINK_QUALITY, PSG_CHANGE_PENALTY, none_eq_some_attacker, none_eq_some_nat,
      some_nat_eq_none]

/-- C1 witness: a parentless node at rank `inf` receives a DIO from node 3
advertising rank 5; selection returns 3, adoption sets the node's rank to
6, and 5 was strictly below `inf`. -/
theorem c1_witness :
    (handle_dio node7 stats0 3 (ERank.fin 5) 1 0).state.rpl_parent_id = some 3
    ∧ (handle_dio node7 stats0 3 (ERank.fin 5) 1 0).state.rpl_rank = (ERank.fin 5).addQ 1
    ∧ ERank.pyLt (ERank.fin 5) node7.rpl_rank = true := by
  have hsel : (sdu_psg_select_parent (lia_update_psg_from_dio node7 3 (ERank.fin 5) 0) stats0
      [⟨3, ERank.fin 5, 1⟩]).best = some 3 := by
    norm_num [sdu_psg_select_parent, psg_select_core, psg_select_stats_update,
      lia_update_psg_from_dio, update_psg_entry, dequeAppend,
      psg_loop, parent_score, freq_penalty, lookupNbr, NodeState.consumeE, consume_energy,
      cost_map, ceES, ERank.pyLe, EScore.pyLt, EScore.addQ, node7, stats0, defaultLIAEntry,
      E_SDU_COMPUTE, E_LIA_UPDATE, PSG_WEIGHT_RANK, PSG_WEIGHT_STABILITY,
      PSG_WEIGHT_LINK_QUALITY, PSG_CHANGE_PENALTY, none_eq_some_attacker, none_eq_some_nat,
      some_nat_eq_none, pyTruthyId, bumpCtr, bumpKey]
  have h := c1_adoption_rank node7 stats0 3 (ERank.fin 5) 1 0 (by simp [node7]) hsel (by norm_num)
  exact ⟨h.1, h.2.1, h.2.2 (by simp [node7])⟩

/-! ### C4: parent-change accounting -/

lemma psg_select_stats_eq (s : NodeState) (stats : Stats) (infos : List PPInfo)
    (h : infos.isEmpty = false) :
    (sdu_psg_select_parent s stats infos).stats
      = psg_select_stats_update stats s.id s.rpl_parent_id
          (sdu_psg_select_parent s stats infos).best := by
  unfold sdu_psg_select_parent
  rw [h]
  rfl

lemma psg_select_state_parent (s : NodeState) (stats : Stats) (infos : List PPInfo) :
    (sdu_psg_select_parent s stats infos).state.rpl_parent_id = s.rpl_parent_id := by
  unfold sdu_psg_select_parent psg_select_core
  by_cases h : infos.isEmpty = true
  · rw [h]; rfl
  · rw [Bool.eq_false_iff.mpr h]; rfl

lemma psg_select_state_id (s : NodeState) (stats : Stats) (infos : List PPInfo) :
    (sdu_psg_select_parent s stats infos).state.id = s.id := by
  unfold sdu_psg_select_parent psg_select_core
  by_cases h : infos.isEmpty = true
  · rw [h]; rfl
  · rw [Bool.eq_false_iff.mpr h]; rfl

lemma psg_select_stats_update_changes (stats : Stats) (i : ℕ) (parent best : Option ℕ) :
    (psg_select_stats_update stats i parent best).rpl_parent_changes
      = (if best ≠ parent ∧ best ≠ none then bumpCtr stats.rpl_parent_changes i
         else stats.rpl_parent_changes) := by
  unfold psg_select_stats_update
  split <;> rfl

/-- C4 amended: processing one DIO is recorded twice when it changes the
parent: when singleton selection returns the (truthy) sender and the
sender differs from the previous parent, adoption happens and the node's
`rpl_parent_changes` counter increases by exactly 2 (once inside
`sdu_psg_select_parent`, once again inside `handle_dio`); when selection
returns the current parent, the counter is unchanged. -/
theorem c4_parent_change_double_counted (s : NodeState) (stats : Stats) (sender_id : ℕ)
    (sender_rank : ERank) (ver : ℕ) (now : ℚ)
    (hatk : s.is_attacker_type ≠ some AttackerType.rpl_rank) :
    ((sdu_psg_select_parent (lia_update_psg_from_dio s sender_id sender_rank now) stats
        [⟨sender_id, sender_rank, ver⟩]).best = some sender_id →
      sender_id ≠ 0 → s.rpl_parent_id ≠ some sender_id →
      (handle_dio s stats sender_id sender_rank ver now).stats.rpl_parent_changes s.id
        = stats.rpl_parent_changes s.id + 2)
    ∧ ((sdu_psg_select_parent (lia_update_psg_from_dio s sender_id sender_rank now) stats
        [⟨sender_id, sender_rank, ver⟩]).best = s.rpl_parent_id →
      (handle_dio s stats sender_id sender_rank ver now).stats.rpl_parent_changes s.id
        = stats.rpl_parent_changes s.id) := by
  have hne : ([(⟨sender_id, sender_rank, ver⟩ : PPInfo)]).isEmpty = false := rfl
  have hstats := psg_select_stats_eq (lia_update_psg_from_dio s sender_id sender_rank now)
    stats [⟨sender_id, sender_rank, ver⟩] hne
  have hpar := psg_select_state_parent (lia_update_psg_from_dio s sender_id sender_rank now)
    stats [⟨sender_id, sender_rank, ver⟩]
  have hid := psg_select_state_id (lia_update_psg_from_dio s sender_id sender_rank now)
    stats [⟨sender_id, sender_rank, ver⟩]
  rw [lia_update_parent] at hpar
  rw [lia_update_id] at hid
  constructor
  · intro hsel hs0 hnp
    simp only [handle_dio, lia_update_attacker]
    rw [if_neg hatk]
    unfold dio_adopt
    rw [hsel]
    rw [if_pos ⟨by simp [pyTruthyId, hs0], rfl⟩]
    simp only [hpar, hid]
    rw [if_pos hnp]
    simp only [bumpCtr, if_pos rfl]
    rw [hstats, hsel]
    rw [lia_update_id, lia_update_parent]
    rw [psg_select_stats_update_changes]
    have hcond : ¬ (some sender_id = s.rpl_parent_id) := fun h => hnp h.symm
    simp [hcond, bumpCtr]
  · intro hsel
    simp only [handle_dio, lia_update_attacker]
    rw [if_neg hatk]
    unfold dio_adopt
    rw [hsel]
    have hch : (sdu_psg_select_parent (lia_update_psg_from_dio s sender_id sender_rank now)
        stats [⟨sender_id, sender_rank, ver⟩]).stats.rpl_parent_changes
        = stats.rpl_parent_changes := by
      rw [hstats, hsel]
      rw [lia_update_id, lia_update_parent]
      rw [psg_select_stats_update_changes]
      rw [if_neg (by simp)]
    by_cases hC : pyTruthyId s.rpl_parent_id = true ∧ s.rpl_parent_id = some sender_id
    · rw [if_pos hC]
      rw [hpar]
      rw [if_neg (by simp)]
      simp [hch]
    · rw [if_neg hC]
      simp [hch]

/-- A parentless node at rank `inf` with a neighbor 3 advertising rank 5;
the DIO from 3 changes the parent. -/
def c4cState : NodeState :=
  { id := 7
    is_attacker_type := none
    energy := 100
    alive := true
    rpl_parent_id := none
    rpl_rank := .inf
    lia_data := fun _ => defaultLIAEntry (-60)
    neighbors := [(3, { alive := true, rpl_rank := .fin 5, is_attacker_type := none })] }

/-- C4 counterexample: one received DIO whose selected parent (node 3)
differs from the previous parent (none) bumps the node's
`rpl_parent_changes` counter from 0 to 2, not by exactly 1 as claimed —
the change is counted once in `sdu_psg_select_parent` and once more in
`handle_dio`. -/
theorem c4_counterexample_double_bump :
    (sdu_psg_select_parent (lia_update_psg_from_dio c4cState 3 (ERank.fin 5) 0) stats0
        [⟨3, ERank.fin 5, 1⟩]).best = some 3
    ∧ c4cState.rpl_parent_id ≠ some 3
    ∧ stats0.rpl_parent_changes 7 = 0
    ∧ (handle_dio c4cState stats0 3 (ERank.fin 5) 1 0).stats.rpl_parent_changes 7 = 2 := by
  refine ⟨?_, ?_, ?_, ?_⟩ <;>
    norm_num [handle_dio, dio_adopt, sdu_psg_select_parent, psg_select_core,
      psg_select_stats_update, lia_update_psg_from_dio, update_psg_entry, dequeAppend,
      psg_loop, parent_score, freq_penalty, lookupNbr, NodeState.consumeE, consume_energy,
      cost_map, ceES, pyTruthyId, bumpCtr, bumpKey, ERank.pyLe, ERank.pyLt, ERank.addQ,
      EScore.pyLt, EScore.addQ, c4cState, stats0, defaultLIAEntry, E_SDU_COMPUTE,
      E_LIA_UPDATE, PSG_WEIGHT_RANK, PSG_WEIGHT_STABILITY, PSG_WEIGHT_LINK_QUALITY,
      PSG_CHANGE_PENALTY, none_eq_some_attacker, none_eq_some_nat, some_nat_eq_none]

/-- C4 amended witness: both halves at concrete inputs — the adoption of
new parent 3 bumps the counter by exactly 2, and re-selecting the current
parent leaves it unchanged. -/
theorem c4_witness :
    (handle_dio c4cState stats0 3 (ERank.fin 5) 1 0).stats.rpl_parent_changes c4cState.id
      = stats0.rpl_parent_changes c4cState.id + 2
    ∧ (handle_dio c1cState stats0 5 (ERank.fin 10) 1 0).stats.rpl_parent_changes c1cState.id
      = stats0.rpl_parent_changes c1cState.id := by
  constructor
  · refine (c4_parent_change_double_counted c4cState stats0 3 (ERank.fin 5) 1 0
      (by simp [c4cState])).1 ?_ (by norm_num) (by simp [c4cState])
    norm_num [sdu_psg_select_parent, psg_select_core, psg_select_stats_update,
      lia_update_psg_from_dio, update_psg_entry, dequeAppend, psg_loop, parent_score,
      freq_penalty, lookupNbr, NodeState.consumeE, consume_energy, cost_map, ceES,
      ERank.pyLe, EScore.pyLt, EScore.addQ, c4cState, stats0, defaultLIAEntry,
      E_SDU_COMPUTE, E_LIA_UPDATE, PSG_WEIGHT_RANK, PSG_WEIGHT_STABILITY,
      PSG_WEIGHT_LINK_QUALITY, PSG_CHANGE_PENALTY, none_eq_some_attacker, none_eq_some_nat,
      some_nat_eq_none, pyTruthyId, bumpCtr, bumpKey]
  · refine (c4_parent_change_double_counted c1cState stats0 5 (ERank.fin 10) 1 0
      (by simp [c1cState])).2 ?_
    norm_num [sdu_psg_select_parent, psg_select_core, psg_select_stats_update,
      lia_update_psg_from_dio, update_psg_entry, dequeAppend, psg_loop, parent_score,
      freq_penalty, lookupNbr, NodeState.consumeE, consume_energy, cost_map, ceES,
      ERank.pyLe, EScore.pyLt, EScore.addQ, c1cState, stats0, defaultLIAEntry,
      E_SDU_COMPUTE, E_LIA_UPDATE, PSG_WEIGHT_RANK, PSG_WEIGHT_STABILITY,
      PSG_WEIGHT_LINK_QUALITY, PSG_CHANGE_PENALTY, none_eq_some_attacker, none_eq_some_nat,
      some_nat_eq_none, pyTruthyId, bumpCtr, bumpKey]

/-! ### C7: PFG forwarder selection -/

/-- The accumulator trace of the `sdu_pfg_select_forwarder` loop with the
energy charges projected away. -/
def pfg_sel (lia : ℕ → LIAEntry) : List ℕ → PFGAcc → PFGAcc
  | [], acc => acc
  | fw :: rest, acc =>
    if acc.maxEu < eu_send lia fw then pfg_sel lia rest ⟨some fw, eu_send lia fw, .Send⟩
    else pfg_sel lia rest acc

lemma pfg_loop_snd (lia : ℕ → LIAEntry) (l : List ℕ) :
    ∀ (es : EnergyState) (acc : PFGAcc), (pfg_loop lia l es acc).2 = pfg_sel lia l acc := by
  induction l with
  | nil => intro es acc; rfl
  | cons fw rest ih =>
    intro es acc
    simp only [pfg_loop, pfg_sel]
    by_cases h : acc.maxEu < eu_send lia fw
    · rw [if_pos h, if_pos h]; exact ih _ _
    · rw [if_neg h, if_neg h]; exact ih _ _

/-- Characterization of the PFG accumulator fold: either no candidate
beats the incoming accumulator and it passes through unchanged, or the
result is the first-seen candidate of maximal expected utility strictly
above the incoming bar. -/
lemma pfg_sel_spec (lia : ℕ → LIAEntry) (l : List ℕ) : ∀ acc : PFGAcc,
    ((∀ c ∈ l, eu_send lia c ≤ acc.maxEu) ∧ pfg_sel lia l acc = acc)
    ∨ (∃ j : ℕ, ∃ hj : j < l.length,
        pfg_sel lia l acc = ⟨some (l.get ⟨j, hj⟩), eu_send lia (l.get ⟨j, hj⟩), Action.Send⟩
        ∧ acc.maxEu < eu_send lia (l.get ⟨j, hj⟩)
        ∧ (∀ k, ∀ hk : k < l.length, eu_send lia (l.get ⟨k, hk⟩) ≤ eu_send lia (l.get ⟨j, hj⟩))
        ∧ (∀ k, ∀ hk : k < l.length, k < j →
            eu_send lia (l.get ⟨k, hk⟩) < eu_send lia (l.get ⟨j, hj⟩))) := by
  induction l with
  | nil =>
    intro acc
    left
    exact ⟨by simp, rfl⟩
  | cons fw rest ih =>
    intro acc
    by_cases h : acc.maxEu < eu_send lia fw
    · have hstep : pfg_sel lia (fw :: rest) acc
          = pfg_sel lia rest ⟨some fw, eu_send lia fw, Action.Send⟩ := by
        simp only [pfg_sel]; rw [if_pos h]
      rcases ih ⟨some fw, eu_send lia fw, Action.Send⟩ with ⟨hall, heq⟩ | ⟨j, hj, heq, hgt, hmax, hfirst⟩
      · right
        refine ⟨0, Nat.succ_pos _, ?_, ?_, ?_, ?_⟩
        · rw [hstep, heq]; rfl
        · exact h
        · intro k hk
          cases k with
          | zero => exact le_refl _
          | succ k2 => exact hall _ (List.get_mem rest k2 (Nat.lt_of_succ_lt_succ hk))
        · intro k hk hk0
          exact absurd hk0 (Nat.not_lt_zero k)
      · right
        refine ⟨j + 1, Nat.succ_lt_succ hj, ?_, ?_, ?_, ?_⟩
        · rw [hstep, heq]; rfl
        · exact lt_trans h hgt
        · intro k hk
          cases k with
          | zero => exact le_of_lt hgt
          | succ k2 => exact hmax k2 (Nat.lt_of_succ_lt_succ hk)
        · intro k hk hkj
          cases k with
          | zero => exact hgt
          | succ k2 => exact hfirst k2 (Nat.lt_of_succ_lt_succ hk) (Nat.lt_of_succ_lt_succ hkj)
    · have hstep : pfg_sel lia (fw :: rest) acc = pfg_sel lia rest acc := by
        simp only [pfg_sel]; rw [if_neg h]
      rcases ih acc with ⟨hall, heq⟩ | ⟨j, hj, heq, hgt, hmax, hfirst⟩
      · left
        refine ⟨?_, by rw [hstep, heq]⟩
        intro c hc
        rcases List.mem_cons.mp hc with rfl | hc2
        · exact le_of_not_lt h
        · exact hall c hc2
      · right
        refine ⟨j + 1, Nat.succ_lt_succ hj, ?_, ?_, ?_, ?_⟩
        · rw [hstep, heq]; rfl
        · exact hgt
        · intro k hk
          cases k with
          | zero => exact le_trans (le_of_not_lt h) (le_of_lt hgt)
          | succ k2 => exact hmax k2 (Nat.lt_of_succ_lt_succ hk)
        · intro k hk hkj
          cases k with
          | zero => exact lt_of_le_of_lt (le_of_not_lt h) hgt
          | succ k2 => exact hfirst k2 (Nat.lt_of_succ_lt_succ hk) (Nat.lt_of_succ_lt_succ hkj)

lemma pfg_select_best_act (s : NodeState) (stats : Stats) (packet : Packet) (cands : List ℕ)
    (h : cands.isEmpty = false) :
    (sdu_pfg_select_forwarder s stats packet cands).best
        = (pfg_sel s.lia_data cands ⟨none, PFG_PAYOFF_HOLD, .Hold⟩).best
    ∧ (sdu_pfg_select_forwarder s stats packet cands).act
        = (pfg_sel s.lia_data cands ⟨none, PFG_PAYOFF_HOLD, .Hold⟩).act := by
  unfold sdu_pfg_select_forwarder
  rw [h]
  simp only [Bool.false_eq_true, if_false, consumeE_lia]
  rw [pfg_loop_snd]
  exact ⟨rfl, rfl⟩

/-- C7: `sdu_pfg_select_forwarder` returns `(None, 'Hold')` for an empty
candidate list and whenever every candidate's expected utility
`p*4 + (1-p)*(-11)` is at most the hold payoff `-0.1`; otherwise (some
candidate strictly beats the hold payoff) it returns `'Send'` with the
first-seen candidate of strictly greatest expected utility. -/
theorem c7_pfg_forwarder (s : NodeState) (stats : Stats) (packet : Packet) (cands : List ℕ) :
    (cands = [] → (sdu_pfg_select_forwarder s stats packet cands).best = none
        ∧ (sdu_pfg_select_forwarder s stats packet cands).act = Action.Hold)
    ∧ ((∀ c ∈ cands, eu_send s.lia_data c ≤ PFG_PAYOFF_HOLD) →
        (sdu_pfg_select_forwarder s stats packet cands).best = none
        ∧ (sdu_pfg_select_forwarder s stats packet cands).act = Action.Hold)
    ∧ (∀ c, c ∈ cands → PFG_PAYOFF_HOLD < eu_send s.lia_data c →
        (sdu_pfg_select_forwarder s stats packet cands).act = Action.Send
        ∧ ∃ j : ℕ, ∃ hj : j < cands.length,
            (sdu_pfg_select_forwarder s stats packet cands).best
              = some (cands.get ⟨j, hj⟩)
            ∧ PFG_PAYOFF_HOLD < eu_send s.lia_data (cands.get ⟨j, hj⟩)
            ∧ (∀ k, ∀ hk : k < cands.length,
                eu_send s.lia_data (cands.get ⟨k, hk⟩)
                  ≤ eu_send s.lia_data (cands.get ⟨j, hj⟩))
            ∧ (∀ k, ∀ hk : k < cands.length, k < j →
                eu_send s.lia_data (cands.get ⟨k, hk⟩)
                  < eu_send s.lia_data (cands.get ⟨j, hj⟩))) := by
  refine ⟨?_, ?_, ?_⟩
  · intro h
    subst h
    exact ⟨rfl, rfl⟩
  · intro hall
    by_cases hc : cands = []
    · subst hc
      exact ⟨rfl, rfl⟩
    · have hne : cands.isEmpty = false := by
        cases cands with
        | nil => exact absurd rfl hc
        | cons a l => rfl
      obtain ⟨hb, ha⟩ := pfg_select_best_act s stats packet cands hne
      rcases pfg_sel_spec s.lia_data cands ⟨none, PFG_PAYOFF_HOLD, .Hold⟩ with ⟨_, heq⟩ | ⟨j, hj, _, hgt, _, _⟩
      · rw [hb, ha, heq]
        exact ⟨rfl, rfl⟩
      · exact absurd hgt (not_lt.mpr (hall _ (List.get_mem cands j hj)))
  · intro c hc hcgt
    have hcne : cands ≠ [] := by
      intro h
      subst h
      cases hc
    have hne : cands.isEmpty = false := by
      cases cands with
      | nil => exact absurd rfl hcne
      | cons a l => rfl
    obtain ⟨hb, ha⟩ := pfg_select_best_act s stats packet cands hne
    rcases pfg_sel_spec s.lia_data cands ⟨none, PFG_PAYOFF_HOLD, .Hold⟩ with ⟨hall, _⟩ | ⟨j, hj, heq, hgt, hmax, hfirst⟩
    · exact absurd hcgt (not_lt.mpr (hall c hc))
    · constructor
      · rw [ha, heq]
      · exact ⟨j, hj, by rw [hb, heq], hgt, hmax, hfirst⟩

/-- A node that knows neighbor 9 as a reliable cooperator (and everyone
else only through the neutral prior). -/
def c7wState : NodeState :=
  { id := 7
    is_attacker_type := none
    energy := 100
    alive := true
    rpl_parent_id := none
    rpl_rank := .fin 3
    lia_data := fun j => if j = 9 then entryCoop else defaultLIAEntry (-60)
    neighbors := [] }

/-- C7 witness: over candidates `[4, 9]`, candidate 9's expected utility
`0.99*4 + 0.01*(-11) = 3.85` beats the hold payoff, so the action is
`'Send'`. -/
theorem c7_witness :
    (sdu_pfg_select_forwarder c7wState stats0 pkt0 [4, 9]).act = Action.Send :=
  ((c7_pfg_forwarder c7wState stats0 pkt0 [4, 9]).2.2 9 (by simp) (by
      norm_num [eu_send, p_cooperate, entryCoop, c7wState, PFG_PAYOFF_HOLD,
        PFG_PAYOFF_SEND_COOPERATE, PFG_PAYOFF_SEND_DEFECT])).1

/-! ### C8: inert nodes, receiving and sending -/

/-- C8 amended: every inbound delivery to a node already marked inert is
an immediate no-op — `_receive_message` returns `False` with the node
state, the statistics and the scheduled sends untouched (so no energy is
charged and no handler dispatched) — and an inert node's periodic DIO
broadcast targets nobody.  (The original claim's stronger "never sends
any message after being marked inert" fails: a delivery whose receive
charge depletes the node still dispatches the data-plane handler, which
can emit a send — see the counterexample.) -/
theorem c8_inert_node_noop (s : NodeState) (stats : Stats) (body : MsgBody)
    (sender_id : ℕ) (now : ℚ) (hdead : s.alive = false) :
    receive_message s stats body sender_id now = ⟨s, stats, some false, []⟩
    ∧ broadcast_dio_targets s = [] := by
  constructor
  · unfold receive_message
    rw [if_pos hdead]
  · unfold broadcast_dio_targets
    rw [if_pos hdead]

/-- `c7wState` marked inert, used by the C8 witness. -/
def c8dead : NodeState :=
  { id := 7
    is_attacker_type := none
    energy := 0
    alive := false
    rpl_parent_id := none
    rpl_rank := .fin 3
    lia_data := fun _ => defaultLIAEntry (-60)
    neighbors := [(9, { alive := true, rpl_rank := .fin 2, is_attacker_type := none })] }

/-- C8 witness: the inert-node no-op at a concrete dead node. -/
theorem c8_witness :
    receive_message c8dead stats0 (MsgBody.data pkt0) 3 0 = ⟨c8dead, stats0, some false, []⟩
    ∧ broadcast_dio_targets c8dead = [] :=
  c8_inert_node_noop c8dead stats0 (MsgBody.data pkt0) 3 0 rfl

/-- A live node holding exactly the receive cost of one DATA packet, whose
neighbor 9 is a reliable cooperator. -/
def c8cState : NodeState :=
  { id := 7
    is_attacker_type := none
    energy := 1/50
    alive := true
    rpl_parent_id := none
    rpl_rank := .fin 3
    lia_data := fun j => if j = 9 then entryCoop else defaultLIAEntry (-60)
    neighbors := [(9, { alive := true, rpl_rank := .fin 2, is_attacker_type := none })] }

/-- C8 counterexample: the very receive charge of the delivery marks the
node inert (its `1/50` energy equals the DATA receive cost), yet the same
delivery still dispatches the data-plane handler, which emits a forward —
a node sends a message after it was marked inert. -/
theorem c8_counterexample_send_after_death :
    (consume_energy c8cState.energy c8cState.alive CostType.rx_pkt none).alive = false
    ∧ (receive_message c8cState stats0 (MsgBody.data pkt0) 3 0).state.alive = false
    ∧ (receive_message c8cState stats0 (MsgBody.data pkt0) 3 0).sends ≠ [] := by
  refine ⟨?_, ?_, ?_⟩ <;>
    norm_num [receive_message, handle_data_packet, hdp_forward, allNeighborIds,
      sdu_pfg_select_forwarder, NodeState.consumeE, consume_energy, cost_map, ceES,
      pfg_loop, eu_send, p_cooperate, pyTruthyId, bumpKey, c8cState, entryCoop, stats0,
      pkt0, defaultLIAEntry, PFG_PAYOFF_HOLD, PFG_PAYOFF_SEND_COOPERATE,
      PFG_PAYOFF_SEND_DEFECT, E_SDU_COMPUTE, E_LIA_UPDATE, E_RX_PKT]

end DeSIST
